import Mathlib

/-!
Verification of the tinyci/ci-runners runner framework and overlay runner.

Each section shallowly embeds the Go source it names: pure string
computations become Lean functions on `String`, and the effectful
orchestration code (queue finalization, overlay mount lifecycle, git
subprocess bracketing, docker container boot) becomes explicit state
passing over small event traces, with the outcomes of external calls
(RPCs, syscalls, subprocesses) supplied by oracle records.
-/

namespace CIRunners

/-! ## Go string primitives

Models of the Go standard-library string functions the sources use.
-/

/-- Go `strings.Count(s, sep)` for a one-character `sep`: the number of
occurrences of the character in the string. -/
def countChar (s : String) (c : Char) : Nat :=
  s.data.count c

/-- The pattern `pat` occurs at the head of `s` (character lists). -/
def charsStartWith : List Char → List Char → Bool
  | [], _ => true
  | _ :: _, [] => false
  | a :: pat, b :: s => a = b && charsStartWith pat s

/-- The pattern `pat` occurs contiguously somewhere inside `s`. -/
def charsContain (pat : List Char) : List Char → Bool
  | [] => charsStartWith pat []
  | c :: s => charsStartWith pat (c :: s) || charsContain pat s

/-- Go `strings.Contains(s, sub)`: contiguous substring test. -/
def containsSubstr (s sub : String) : Bool :=
  charsContain sub.data s.data

/-- Go `strings.TrimLeft(s, cutset)`: removes the *leading characters that
belong to the cutset* (it is a character-set trim, not a whole-word trim). -/
def goTrimLeft (s cutset : String) : String :=
  ⟨s.data.dropWhile (fun c => cutset.data.contains c)⟩

/-! ## runners/overlay-runner/git.go and runner.go — default branch name

Both variants of `Run.PullRepo` compute

  `strings.TrimLeft(strings.TrimLeft(baseRef.RefName, "heads/"), "tags/")`
-/

/-- The default-branch computation of `Run.PullRepo`
(src/runners/overlay-runner/git.go line 38 and runner.go variant line 251). -/
def defaultBranchName (refName : String) : String :=
  goTrimLeft (goTrimLeft refName "heads/") "tags/"

/-! ## runners/overlay-runner/docker.go — image reference resolution -/

/-- The image reference normalization performed by `Run.pullImage`
(src/runners/overlay-runner/docker.go lines 90-121). -/
def resolveImage (img : String) : String :=
  if countChar img '/' ≤ 1 then
    let img2 := if countChar img '/' = 0 then "library/" ++ img else img
    "docker.io/" ++ img2
  else img

/-! ## fw/git/git.go — repository name validation -/

/-- `RepoManager.validateRepoName` (src/fw/git/git.go lines 120-130):
rejects a name whose slash count differs from one, then a name containing
the substring "..", in that order; `none` means the name is accepted. -/
def validateRepoName (repoName : String) : Option String :=
  if countChar repoName '/' ≠ 1 then
    some "missing partition between owner and repository"
  else if containsSubstr repoName ".." then
    some "this looks like an invalid path, clever guy"
  else
    none

/-- The name-validation portion of `RepoManager.Init`
(src/fw/git/git.go lines 96-118): the parent name is validated first,
then the fork name; the first failure is returned. -/
def repoManagerInitCheck (repoName forkRepoName : String) : Option String :=
  match validateRepoName repoName with
  | some e => some e
  | none => validateRepoName forkRepoName

end CIRunners

namespace CIRunners

/-! ## fw/fw.go — run finalization against the queue service

`Entrypoint.iterate` finishes a run by calling `Entrypoint.processCancel`
and then, unless a cancel was observed, `SetStatus`. The queue service is
modeled as a state carrying its cancel flag, its recorded status, and
call counters; the model is the error-free execution (every RPC
succeeds), so the 1-second-backoff error retries of the source collapse
to single calls. -/

/-- The queue-service state visible to one run, plus RPC call counters. -/
structure QueueState where
  canceled : Bool
  status : Option Bool
  getCancelCalls : Nat
  setCancelCalls : Nat
  setStatusCalls : Nat
deriving Repr, DecidableEq

/-- `GetCancel`: returns the recorded cancel flag. -/
def QueueState.pollCancel (q : QueueState) : Bool × QueueState :=
  (q.canceled, { q with getCancelCalls := q.getCancelCalls + 1 })

/-- `SetCancel`: records the cancel. -/
def QueueState.setCancel (q : QueueState) : QueueState :=
  { q with canceled := true, setCancelCalls := q.setCancelCalls + 1 }

/-- `SetStatus`: records the pass/fail status. -/
def QueueState.setStatus (q : QueueState) (s : Bool) : QueueState :=
  { q with status := some s, setStatusCalls := q.setStatusCalls + 1 }

/-- `Entrypoint.processCancel` (src/fw/fw.go lines 191-210): poll
`GetCancel`; if the run context ended by deadline and the queue did not
report a cancel, call `SetCancel` and go back to the `retry` label;
otherwise return the polled flag. -/
def processCancel (timedOut : Bool) (q : QueueState) : Bool × QueueState :=
  if _h : timedOut && !q.canceled then
    processCancel timedOut
      (QueueState.setCancel { q with getCancelCalls := q.getCancelCalls + 1 })
  else
    (q.canceled, { q with getCancelCalls := q.getCancelCalls + 1 })
termination_by (if q.canceled then 0 else 1)
decreasing_by
  simp_wf
  have hc : q.canceled = false := by
    revert _h
    cases q.canceled <;> simp
  simp [QueueState.setCancel, hc]

/-- The finalization tail of `Entrypoint.iterate` (src/fw/fw.go lines
285-294): if `processCancel` reports a cancel the status report is
skipped, otherwise `SetStatus` is called with the boolean `Run`
returned. -/
def finalizeRun (timedOut runStatus : Bool) (q : QueueState) : QueueState :=
  let p := processCancel timedOut q
  if p.1 then p.2 else p.2.setStatus runStatus

/-- A queue state that has not yet recorded anything for the run. -/
def freshQueue : QueueState :=
  { canceled := false, status := none
    getCancelCalls := 0, setCancelCalls := 0, setStatusCalls := 0 }

/-! ## runners/overlay-runner/docker.go — container create retry in `Run.boot`

The loop `for i := 0; i < 5; i++` calls `ContainerCreate`; on error it
records the error in `outErr`, sleeps one second and continues; on
success it records the container id, clears `outErr` and breaks. The
outcome of attempt `i` is supplied by the oracle function `att`. -/

/-- The state `Run.boot` is left in after the create loop. -/
structure BootCreateResult where
  containerID : Option String
  outErr : Option String
  attemptsMade : Nat
  sleeps : Nat
deriving Repr, DecidableEq

/-- One execution of the create loop body and its successors, with
`remaining` iterations left and `i` the next attempt index. -/
def bootCreateAux (att : Nat → Except String String) :
    Nat → Nat → Option String → Nat → Nat → BootCreateResult
  | 0, _, outErr, made, sleeps =>
    { containerID := none, outErr := outErr, attemptsMade := made, sleeps := sleeps }
  | r + 1, i, outErr, made, sleeps =>
    match att i with
    | .error e => bootCreateAux att r (i + 1) (some e) (made + 1) (sleeps + 1)
    | .ok cid =>
      { containerID := some cid, outErr := none, attemptsMade := made + 1, sleeps := sleeps }

/-- The `ContainerCreate` retry loop of `Run.boot`
(src/runners/overlay-runner/docker.go lines 150-169 and variant
409-428): five iterations starting at attempt 0. -/
def bootCreate (att : Nat → Except String String) : BootCreateResult :=
  bootCreateAux att 5 0 none 0 0

/-- The attempt succeeded. -/
def attOk : Except String String → Bool
  | .ok _ => true
  | .error _ => false

/-- The error carried by a failed attempt, if any. -/
def attErr : Except String String → Option String
  | .ok _ => none
  | .error e => some e

/-! ## fw/git/git.go — login-script bracketing and merge rollback

`RepoManager.Run` brackets every subprocess with the login script:
`createLoginScript` writes the `GIT_ASKPASS` helper, the command is
started on a pty with `GIT_ASKPASS` and `EDITOR` added to the inherited
environment, and a deferred `removeLoginScript` deletes the file once
the invocation returns (also when the pty fails to start). Filesystem
and subprocess outcomes are supplied by a `GitRunOracle`; executions are
recorded as `GitEvent` traces. -/

/-- An observable step of `RepoManager.Run`. -/
inductive GitEvent
  /-- the login script was written (`createLoginScript`) -/
  | scriptWritten (path content : String) (mode : Nat)
  /-- the subprocess started on the pty, with its argv and environment -/
  | spawned (cmd : List String) (env : List (String × String))
  /-- `cmd.Wait` returned, with the subprocess result -/
  | waited (result : Option String)
  /-- the login script was deleted (`removeLoginScript`) -/
  | scriptRemoved (path : String)
deriving Repr, DecidableEq

/-- Outcomes of the effectful steps inside one `RepoManager.Run` call. -/
structure GitRunOracle where
  createOk : Bool
  startOk : Bool
  waitResult : Option String
deriving Repr, DecidableEq

/-- Hex digit used by the `%q` fallback for non-printable bytes. -/
def hexDigit (n : Nat) : Char :=
  if n < 10 then Char.ofNat (48 + n) else Char.ofNat (87 + n)

/-- Go `%q` escaping of one character (the ASCII fragment of
`strconv.Quote`, which is what access tokens exercise). -/
def goQuoteChar (c : Char) : String :=
  if c = Char.ofNat 34 then "\\\""
  else if c = Char.ofNat 92 then "\\\\"
  else if c = Char.ofNat 10 then "\\n"
  else if c = Char.ofNat 9 then "\\t"
  else if c = Char.ofNat 13 then "\\r"
  else if 32 ≤ c.toNat ∧ c.toNat ≤ 126 then String.singleton c
  else String.mk [Char.ofNat 92, Char.ofNat 120, hexDigit (c.toNat / 16 % 16), hexDigit (c.toNat % 16)]

/-- Go `fmt.Sprintf("%q", s)` for an ASCII string. -/
def goQuote (s : String) : String :=
  "\"" ++ String.join (s.data.map goQuoteChar) ++ "\""

/-- The exact login-script content written by
`RepoManager.createLoginScript` (src/fw/git/git.go lines 135-152): the
Go raw-string literal opens with a newline, so the file begins with a
blank line before the `#!/bin/sh` line. -/
def scriptContent (accessToken : String) : String :=
  "\n#!/bin/sh\necho " ++ goQuote accessToken ++ "\n"

/-- `RepoManager.Run` (src/fw/git/git.go lines 292-313): write the login
script (mode 0700), run the command on a pty with `GIT_ASKPASS` and
`EDITOR=/bin/true` appended to the inherited environment plus
`rm.Env`, wait, and delete the script via the deferred remove (which
also runs when the pty fails to start). -/
def repoManagerRun (loginScriptPath accessToken : String)
    (baseEnv extraEnv : List (String × String)) (cmd : List String)
    (o : GitRunOracle) : Option String × List GitEvent :=
  if !o.createOk then
    (some "creating login script failed", [])
  else
    let env := baseEnv ++
      [("GIT_ASKPASS", loginScriptPath), ("EDITOR", "/bin/true")] ++ extraEnv
    if !o.startOk then
      (some "pty start failed",
       [GitEvent.scriptWritten loginScriptPath (scriptContent accessToken) 0o700,
        GitEvent.scriptRemoved loginScriptPath])
    else
      (o.waitResult,
       [GitEvent.scriptWritten loginScriptPath (scriptContent accessToken) 0o700,
        GitEvent.spawned cmd env,
        GitEvent.waited o.waitResult,
        GitEvent.scriptRemoved loginScriptPath])

/-- The event is a subprocess start. -/
def GitEvent.isSpawn : GitEvent → Bool
  | .spawned _ _ => true
  | _ => false

/-- Every subprocess start in the trace has a write of the login script
(with the given content and mode) strictly before it and a deletion of
the script strictly after it. -/
def spawnBracketed (evs : List GitEvent) (path content : String) (mode : Nat) : Prop :=
  ∀ i, ∀ hi : i < evs.length, (evs.get ⟨i, hi⟩).isSpawn = true →
    (∃ j, ∃ hj : j < evs.length, j < i ∧
      evs.get ⟨j, hj⟩ = GitEvent.scriptWritten path content mode) ∧
    (∃ k, ∃ hk : k < evs.length, i < k ∧
      evs.get ⟨k, hk⟩ = GitEvent.scriptRemoved path)

/-- The argv of `RepoManager.Merge`'s merge invocation. -/
def mergeCmd (ref : String) : List String :=
  ["git", "merge", "--no-ff", "-m", "CI merge", ref]

/-- The argv of `RepoManager.Merge`'s rollback invocation. -/
def mergeAbortCmd : List String :=
  ["git", "merge", "--abort"]

/-- The argv of every subprocess started in a trace, in order. -/
def spawnedCmds (evs : List GitEvent) : List (List String) :=
  evs.filterMap fun e =>
    match e with
    | .spawned c _ => some c
    | _ => none

/-- `RepoManager.Merge` (src/fw/git/git.go lines 278-289): run
`git merge --no-ff -m "CI merge" <ref>`; the deferred handler sees the
named return, and exactly when it is non-nil logs a rollback notice,
runs `git merge --abort`, and logs (but otherwise ignores) an abort
failure; the original merge error is returned. The two subprocess
outcomes are `mergeRes` and `abortRes`. -/
def repoManagerMerge (loginScriptPath accessToken : String)
    (baseEnv extraEnv : List (String × String)) (ref : String)
    (mergeRes abortRes : Option String) :
    Option String × List GitEvent × List String :=
  let r1 := repoManagerRun loginScriptPath accessToken baseEnv extraEnv
    (mergeCmd ref) { createOk := true, startOk := true, waitResult := mergeRes }
  match r1.1 with
  | none => (none, r1.2, [])
  | some e =>
    let r2 := repoManagerRun loginScriptPath accessToken baseEnv extraEnv
      mergeAbortCmd { createOk := true, startOk := true, waitResult := abortRes }
    (some e,
     r1.2 ++ r2.2,
     "merge error; trying to roll back" ::
       (match r2.1 with
        | some ae => ["while attempting to roll back: " ++ ae]
        | none => []))

/-! ## fw/overlay/overlay.go and runners/overlay-runner — mount lifecycle

`Run.RunDocker` materializes the repo, calls `Run.MountRepo` (three
`ioutil.TempDir` calls, then `Mount.Mount`), and registers
`defer r.MountCleanup(m)` *after* checking `MountRepo`'s error, so the
deferred cleanup only exists on paths where the mount succeeded.
`Run.MountCleanup` is `Mount.Unmount` then `Mount.Cleanup` (remove
work, upper, target via `os.RemoveAll`, stopping at the first error).
Syscall and RPC outcomes are supplied by a `DockerRunOracle`; the
filesystem-visible actions are recorded as `RunEvent`s. -/

/-- A filesystem-visible step of one docker run. -/
inductive RunEvent
  /-- an `ioutil.TempDir` call returned this fresh directory -/
  | tempdirCreated (path : String)
  /-- the `unix.Mount` overlay syscall was issued -/
  | mountAttempt (ok : Bool)
  /-- the `unix.Unmount` syscall was issued on the target -/
  | unmountAttempt (ok : Bool)
  /-- `os.RemoveAll` was issued on the directory -/
  | removeAttempt (path : String) (ok : Bool)
deriving Repr, DecidableEq

/-- `overlay.Mount` (src/fw/overlay/overlay.go lines 61-68). -/
structure Mount where
  lower : String
  work : String
  upper : String
  target : String
deriving Repr, DecidableEq

/-- Go `filepath.IsAbs` on unix: the path begins with a slash. -/
def goIsAbs (p : String) : Bool :=
  match p.data with
  | [] => false
  | c :: _ => c = '/'

instance {ε α : Type} [DecidableEq ε] [DecidableEq α] : DecidableEq (Except ε α) :=
  fun a b =>
    match a, b with
    | .error e1, .error e2 =>
      if h : e1 = e2 then isTrue (by rw [h]) else isFalse (by simp [h])
    | .ok a1, .ok a2 =>
      if h : a1 = a2 then isTrue (by rw [h]) else isFalse (by simp [h])
    | .error _, .ok _ => isFalse (by simp)
    | .ok _, .error _ => isFalse (by simp)

/-- The loop body of `Mount.validate`: first offending directory wins. -/
def validateDirs : List String → Option String
  | [] => none
  | d :: rest =>
    if !goIsAbs d then some (d ++ " must be an absolute path")
    else if containsSubstr d ".." then some (d ++ " contains invalid paths: ..")
    else validateDirs rest

/-- `Mount.validate` (src/fw/overlay/overlay.go lines 70-81). -/
def Mount.validate (m : Mount) : Option String :=
  validateDirs [m.lower, m.work, m.upper, m.target]

/-- Outcomes of the effectful steps of one `Run.RunDocker` execution. -/
structure DockerRunOracle where
  pullRepoOk : Bool
  workDirResult : Except String String
  upperDirResult : Except String String
  targetDirResult : Except String String
  mountOk : Bool
  unmountOk : Bool
  removeWorkOk : Bool
  removeUpperOk : Bool
  removeTargetOk : Bool
  pullImageOk : Bool
  bootOk : Bool
  superviseResult : Except String Bool
deriving Repr

/-- `Mount.Mount` (src/fw/overlay/overlay.go lines 102-108): validate,
then issue the overlay mount syscall. -/
def mountOp (m : Mount) (ok : Bool) : Option String × List RunEvent :=
  match m.validate with
  | some e => (some e, [])
  | none =>
    if ok then (none, [RunEvent.mountAttempt true])
    else (some "mount syscall failed", [RunEvent.mountAttempt false])

/-- `Mount.Unmount` (src/fw/overlay/overlay.go lines 94-100): validate,
then issue the unmount syscall (with the do-not-follow-symlinks flag). -/
def unmountOp (m : Mount) (ok : Bool) : Option String × List RunEvent :=
  match m.validate with
  | some e => (some e, [])
  | none =>
    if ok then (none, [RunEvent.unmountAttempt true])
    else (some "unmount syscall failed", [RunEvent.unmountAttempt false])

/-- `Mount.Cleanup` (src/fw/overlay/overlay.go lines 84-92): remove
work, upper, target in that order, stopping at the first error. -/
def cleanupOp (m : Mount) (o : DockerRunOracle) : Option String × List RunEvent :=
  if !o.removeWorkOk then
    (some "remove failed", [RunEvent.removeAttempt m.work false])
  else if !o.removeUpperOk then
    (some "remove failed",
     [RunEvent.removeAttempt m.work true, RunEvent.removeAttempt m.upper false])
  else if !o.removeTargetOk then
    (some "remove failed",
     [RunEvent.removeAttempt m.work true, RunEvent.removeAttempt m.upper true,
      RunEvent.removeAttempt m.target false])
  else
    (none,
     [RunEvent.removeAttempt m.work true, RunEvent.removeAttempt m.upper true,
      RunEvent.removeAttempt m.target true])

/-- `Run.MountRepo` (src/runners/overlay-runner/overlay.go lines 13-37):
three fresh temp dirs (work, upper, target), then the overlay `Mount`
with the git cache path as lower; the mount error, if any, is the
returned error. -/
def mountRepo (repoPath : String) (o : DockerRunOracle) :
    Except String Mount × List RunEvent :=
  match o.workDirResult with
  | .error e => (.error e, [])
  | .ok work =>
    match o.upperDirResult with
    | .error e => (.error e, [RunEvent.tempdirCreated work])
    | .ok upper =>
      match o.targetDirResult with
      | .error e =>
        (.error e, [RunEvent.tempdirCreated work, RunEvent.tempdirCreated upper])
      | .ok target =>
        let m : Mount := { lower := repoPath, work := work, upper := upper, target := target }
        let mr := mountOp m o.mountOk
        ((match mr.1 with
          | none => .ok m
          | some e => .error e),
         [RunEvent.tempdirCreated work, RunEvent.tempdirCreated upper,
          RunEvent.tempdirCreated target] ++ mr.2)

/-- `Run.MountCleanup` (src/runners/overlay-runner/overlay.go lines
40-46): unmount first; only if that succeeds, remove the temp dirs. -/
def mountCleanup (m : Mount) (o : DockerRunOracle) : Option String × List RunEvent :=
  let u := unmountOp m o.unmountOk
  match u.1 with
  | some e => (some e, u.2)
  | none =>
    let c := cleanupOp m o
    (c.1, u.2 ++ c.2)

/-- `Run.RunDocker` (src/runners/overlay-runner/docker.go lines 207-246
and variant 466-505), restricted to its filesystem-visible actions:
pull repo, mount, pull image, boot, supervise; `MountCleanup` is
deferred only after a successful `MountRepo`, so the mount-error return
happens before the cleanup defer is registered. -/
def runDocker (repoPath : String) (o : DockerRunOracle) :
    Except String Bool × List RunEvent :=
  if !o.pullRepoOk then (.error "pull repo failed", [])
  else
    let mr := mountRepo repoPath o
    match mr.1 with
    | .error e => (.error e, mr.2)
    | .ok m =>
      if !o.pullImageOk then
        let c := mountCleanup m o
        (.error "could not pull image", mr.2 ++ c.2)
      else if !o.bootOk then
        let c := mountCleanup m o
        (.error "could not boot container", mr.2 ++ c.2)
      else
        let c := mountCleanup m o
        ((match o.superviseResult with
          | .ok passed => .ok passed
          | .error e => .error e),
         mr.2 ++ c.2)

/-- Number of unmount syscalls in a trace. -/
def countUnmounts (evs : List RunEvent) : Nat :=
  evs.countP fun e =>
    match e with
    | RunEvent.unmountAttempt _ => true
    | _ => false

/-- Number of `os.RemoveAll` calls in a trace. -/
def countRemoves (evs : List RunEvent) : Nat :=
  evs.countP fun e =>
    match e with
    | RunEvent.removeAttempt _ _ => true
    | _ => false

/-- Number of temp directories created in a trace. -/
def countTempdirs (evs : List RunEvent) : Nat :=
  evs.countP fun e =>
    match e with
    | RunEvent.tempdirCreated _ => true
    | _ => false

/-- The oracle of a run whose overlay mount syscall fails and whose
other effects all succeed. -/
def mountFailOracle : DockerRunOracle :=
  { pullRepoOk := true
    workDirResult := .ok "/tmp/tinyci-work1"
    upperDirResult := .ok "/tmp/tinyci-upper1"
    targetDirResult := .ok "/tmp/tinyci-target1"
    mountOk := false, unmountOk := true
    removeWorkOk := true, removeUpperOk := true, removeTargetOk := true
    pullImageOk := true, bootOk := true, superviseResult := .ok true }

/-! ## runners/overlay-runner/docker.go — docker pull progress parsing

`outputPullRead` scans newline-delimited JSON events, feeds each decoded
object to `processLine` together with the accumulated
layer-id-to-(current, total) map, and prints a percentage exactly when
`processLine` says not to skip and the accumulated totals are nonzero.
JSON numbers are modeled as rationals and the decoded object as the
three fields the code reads. -/

/-- One decoded docker pull event: the fields `processLine` reads.
Absent fields (or fields of the wrong JSON type, which Go's type
assertions turn into zero values) are `none`. -/
structure PullEvent where
  status : Option String
  id : Option String
  progressDetail : Option (List (String × ℚ))
deriving Repr, DecidableEq

/-- The `idMap` of `outputPullRead`: layer id to (current, total). -/
abbrev IdMap := List (String × ℚ × ℚ)

/-- Go map assignment `idMap[id] = v`. -/
def idMapSet (m : IdMap) (key : String) (v : ℚ × ℚ) : IdMap :=
  match m with
  | [] => [(key, v)]
  | (k, w) :: rest =>
    if k = key then (key, v) :: rest else (k, w) :: idMapSet rest key v

/-- Go map read `idMap[id]` with its ok flag. -/
def idMapGet (m : IdMap) (key : String) : Option (ℚ × ℚ) :=
  match m with
  | [] => none
  | (k, w) :: rest => if k = key then some w else idMapGet rest key

/-- Go `pd["current"].(float64)`: the numeric field, or 0 when absent. -/
def detailNum (pd : List (String × ℚ)) (key : String) : ℚ :=
  match pd with
  | [] => 0
  | (k, v) :: rest => if k = key then v else detailNum rest key

/-- `processLine` (src/runners/overlay-runner/docker.go lines 22-52,
identical in both variants): returns `true` to make the caller skip the
event (a `continue`), and the updated map. -/
def processLine (e : PullEvent) (idMap : IdMap) : Bool × IdMap :=
  match e.status with
  | none => (true, idMap)
  | some status =>
    if status = "" then (true, idMap)
    else
      let completed := status = "Pull complete"
      if ¬completed ∧ status ≠ "Downloading" then (true, idMap)
      else
        match e.id with
        | none => (false, idMap)
        | some id =>
          if id = "" then (false, idMap)
          else if completed then
            match idMapGet idMap id with
            | some (_, t) => (false, idMapSet idMap id (t, t))
            | none => (false, idMapSet idMap id (1, 1))
          else
            match e.progressDetail with
            | none => (false, idMap)
            | some pd =>
              if pd = [] then (false, idMap)
              else
                (false,
                 idMapSet idMap id (detailNum pd "current", detailNum pd "total"))

/-- The sum of the `current` components of the map. -/
def sumCurrent (m : IdMap) : ℚ :=
  (m.map fun p => p.2.1).sum

/-- The sum of the `total` components of the map. -/
def sumTotal (m : IdMap) : ℚ :=
  (m.map fun p => p.2.2).sum

/-- The rendering step of `outputPullRead` (lines 71-84): a percentage
line is printed only under the `sum != 0` guard. -/
def renderLine (m : IdMap) : Option ℚ :=
  if sumTotal m = 0 then none else some (sumCurrent m / sumTotal m * 100)

/-- One iteration of the `outputPullRead` scan loop, threading the map
and accumulating the printed percentages. -/
def pullStep (st : IdMap × List ℚ) (e : PullEvent) : IdMap × List ℚ :=
  let r := processLine e st.1
  if r.1 then (r.2, st.2)
  else
    match renderLine r.2 with
    | none => (r.2, st.2)
    | some pct => (r.2, st.2 ++ [pct])

/-- `outputPullRead` over a whole decoded event stream: the final map
and the printed percentages, in order. -/
def runPull (events : List PullEvent) : IdMap × List ℚ :=
  events.foldl pullStep ([], [])

/-- Companion fold that records the map state at every point where the
scan loop reaches its rendering statement (every non-skipped event). -/
def renderPointsStep (st : IdMap × List IdMap) (e : PullEvent) : IdMap × List IdMap :=
  let r := processLine e st.1
  if r.1 then (r.2, st.2) else (r.2, st.2 ++ [r.2])

/-- The map states at which `outputPullRead` reaches its rendering
statement. -/
def renderPoints (events : List PullEvent) : List IdMap :=
  (events.foldl renderPointsStep ([], [])).2

/-- A `Downloading` event whose progress detail reports three bytes of a
zero total (a stream whose recorded totals sum to zero). -/
def zeroTotalEvent : PullEvent :=
  { status := some "Downloading", id := some "a"
    progressDetail := some [("current", 3), ("total", 0)] }

/-! ## Theorems for claims C3, C5, C9 -/

/-- C3: the spec says `PullRepo` strips a leading "heads/" or "tags/"
prefix from the base ref name, leaving the remainder unchanged, so that
"heads/develop" yields "develop". The code instead calls Go
`strings.TrimLeft`, which trims by *character set*: on "heads/develop" it
also consumes the 'd' and 'e' of "develop" and produces "velop". The
"tags/v1" and "master" examples happen to agree with the spec. -/
theorem defaultBranchName_heads_develop_bug :
    defaultBranchName "heads/develop" = "velop" ∧
    defaultBranchName "heads/develop" ≠ "develop" ∧
    defaultBranchName "tags/v1" = "v1" ∧
    defaultBranchName "master" = "master" := by
  refine ⟨by decide, by decide, by decide, by decide⟩

/-- C5: the reference `Run.pullImage` pulls is the input prefixed with
"docker.io/library/" when it has zero slashes, the input prefixed with
"docker.io/" when it has exactly one slash, and the input unchanged when
it has two or more slashes. -/
theorem resolveImage_spec (img : String) :
    resolveImage img =
      if countChar img '/' = 0 then "docker.io/library/" ++ img
      else if countChar img '/' = 1 then "docker.io/" ++ img
      else img := by
  unfold resolveImage
  rcases h : countChar img '/' with _ | n
  · simp [h, ← String.append_assoc]
  · rcases n with _ | n
    · simp
    · simp [Nat.succ_le_succ_iff]

/-- C9: repo-name validation in `Init` is purely syntactic: a parent or
fork name is rejected exactly when it contains the two-character
substring ".." anywhere (so "a..b/repo" is rejected even though it has
no ".." path segment) or when its count of '/' characters differs from
one. -/
theorem repoManagerInitCheck_rejects (parent fork : String) :
    (validateRepoName parent = none ↔
      (countChar parent '/' = 1 ∧ containsSubstr parent ".." = false)) ∧
    (containsSubstr parent ".." = true ∨ countChar parent '/' ≠ 1 →
      (repoManagerInitCheck parent fork).isSome = true) ∧
    (containsSubstr fork ".." = true ∨ countChar fork '/' ≠ 1 →
      (repoManagerInitCheck parent fork).isSome = true) := by
  refine ⟨?_, ?_, ?_⟩
  · unfold validateRepoName
    split
    · simp_all
    · split <;> simp_all
  · intro h
    unfold repoManagerInitCheck validateRepoName
    by_cases h1 : countChar parent '/' = 1
    · rcases h with h | h
      · simp [h1, h]
      · exact absurd h1 h
    · simp [h1]
  · intro h
    unfold repoManagerInitCheck
    rcases hp : validateRepoName parent with _ | e <;> simp only [hp]
    · unfold validateRepoName
      by_cases h1 : countChar fork '/' = 1
      · rcases h with h | h
        · simp [h1, h]
        · exact absurd h1 h
      · simp [h1]
    · rfl

/-- Witness for C9 at the concrete inputs from the claim: "a..b/repo" has
exactly one slash yet is rejected, both as parent and as fork name. -/
theorem repoManagerInitCheck_rejects_w :
    (repoManagerInitCheck "a..b/repo" "o/r").isSome = true ∧
    (repoManagerInitCheck "o/r" "a..b/repo").isSome = true :=
  ⟨(repoManagerInitCheck_rejects "a..b/repo" "o/r").2.1 (Or.inl (by decide)),
   (repoManagerInitCheck_rejects "o/r" "a..b/repo").2.2 (Or.inl (by decide))⟩

/-- Helper: when every attempt in range fails, the create loop runs out of
iterations carrying the error of the last attempt. -/
theorem bootCreateAux_allFail (att : Nat → Except String String) :
    ∀ r i oe made sleeps, 0 < r → (∀ j, j < r → attOk (att (i + j)) = false) →
    bootCreateAux att r i oe made sleeps =
      { containerID := none, outErr := attErr (att (i + r - 1))
        attemptsMade := made + r, sleeps := sleeps + r } := by
  intro r
  induction r with
  | zero => omega
  | succ r ih =>
    intro i oe made sleeps _ hfail
    have h0 : attOk (att i) = false := by
      have := hfail 0 (by omega)
      simpa using this
    rcases he : att i with e | cid
    · rcases r with _ | r
      · simp [bootCreateAux, he, attErr]
      · have := ih (i + 1) (some e) (made + 1) (sleeps + 1) (by omega)
          (fun j hj => by
            have := hfail (j + 1) (by omega)
            simpa [Nat.add_assoc, Nat.add_comm 1 j] using this)
        simp only [bootCreateAux, he] at *
        rw [this]
        have harg : i + 1 + (r + 1) - 1 = i + (r + 1 + 1) - 1 := by omega
        rw [harg]
        simp [BootCreateResult.mk.injEq]
        omega
    · rw [he] at h0
      simp [attOk] at h0

/-- Helper: when attempt `k` (relative to base index `i`) is the first
success within range, the create loop stops there with a container id,
clears the error, and has slept once per failed attempt before it. -/
theorem bootCreateAux_firstOk (att : Nat → Except String String) :
    ∀ k r i oe made sleeps, k < r → attOk (att (i + k)) = true →
    (∀ j, j < k → attOk (att (i + j)) = false) →
    ∃ cid, att (i + k) = .ok cid ∧
    bootCreateAux att r i oe made sleeps =
      { containerID := some cid, outErr := none
        attemptsMade := made + k + 1, sleeps := sleeps + k } := by
  intro k
  induction k with
  | zero =>
    intro r i oe made sleeps hr hok _
    rcases r with _ | r
    · omega
    · rcases he : att i with e | cid
      · rw [show i + 0 = i from rfl, he] at hok
        simp [attOk] at hok
      · exact ⟨cid, by simpa using he, by simp [bootCreateAux, he]⟩
  | succ k ih =>
    intro r i oe made sleeps hr hok hfail
    rcases r with _ | r
    · omega
    · have h0 : attOk (att i) = false := by
        have := hfail 0 (by omega)
        simpa using this
      rcases he : att i with e | cid
      · have hok' : attOk (att (i + 1 + k)) = true := by
          have harg : i + 1 + k = i + (k + 1) := by omega
          rw [harg]; exact hok
        obtain ⟨cid, hcid, hrec⟩ := ih r (i + 1) (some e) (made + 1) (sleeps + 1)
          (by omega) hok'
          (fun j hj => by
            have := hfail (j + 1) (by omega)
            simpa [Nat.add_assoc, Nat.add_comm 1 j] using this)
        refine ⟨cid, by simpa [show i + 1 + k = i + (k + 1) from by omega] using hcid, ?_⟩
        simp only [bootCreateAux, he]
        rw [hrec]
        simp [BootCreateResult.mk.injEq]
        omega
      · rw [he] at h0
        simp [attOk] at h0

/-- C7: container creation is attempted at most 5 times; the loop sleeps
one second after each failed attempt; if any of the five attempts
succeeds the create step ends with no error and a container id; if all
five fail, the create step ends with exactly the error of the last
(fifth) attempt, and `boot` returns it. -/
theorem bootCreate_spec (att : Nat → Except String String) :
    (bootCreate att).attemptsMade ≤ 5 ∧
    (bootCreate att).sleeps =
      (bootCreate att).attemptsMade -
        (if (bootCreate att).containerID.isSome then 1 else 0) ∧
    ((∃ k, k < 5 ∧ attOk (att k) = true) →
      (bootCreate att).outErr = none ∧ (bootCreate att).containerID.isSome = true) ∧
    ((∀ k, k < 5 → attOk (att k) = false) →
      (bootCreate att).outErr = attErr (att 4) ∧
      (bootCreate att).attemptsMade = 5 ∧
      (bootCreate att).outErr.isSome = true) := by
  by_cases hex : ∃ k, attOk (att k) = true ∧ k < 5
  · obtain ⟨kw, hkw⟩ := hex
    have hexo : ∃ n, attOk (att n) = true := ⟨kw, hkw.1⟩
    set k0 := Nat.find hexo with hk0
    have hfind : attOk (att k0) = true := Nat.find_spec hexo
    have hk0le : k0 ≤ kw := Nat.find_min' hexo hkw.1
    have hk05 : k0 < 5 := lt_of_le_of_lt hk0le hkw.2
    have hmin : ∀ j, j < k0 → attOk (att j) = false := by
      intro j hj
      have := Nat.find_min hexo hj
      simpa using this
    obtain ⟨cid, _, hres⟩ :=
      bootCreateAux_firstOk att k0 5 0 none 0 0 hk05 (by simpa using hfind)
        (fun j hj => by simpa using hmin j hj)
    unfold bootCreate
    rw [hres]
    refine ⟨by simp; omega, by simp, fun _ => by simp, fun hall => ?_⟩
    exact absurd hfind (by simp [hall k0 hk05])
  · push_neg at hex
    have hall : ∀ j, j < 5 → attOk (att j) = false := by
      intro j hj
      have := hex j
      rcases h : attOk (att j) with _ | _
      · rfl
      · exact absurd hj (by simpa [h] using this)
    have hres := bootCreateAux_allFail att 5 0 none 0 0 (by omega)
      (fun j hj => by simpa using hall j hj)
    unfold bootCreate
    rw [hres]
    have h4 : attOk (att 4) = false := hall 4 (by omega)
    have : (attErr (att 4)).isSome = true := by
      rcases he : att 4 with e | c
      · simp [attErr, he]
      · rw [he] at h4; simp [attOk] at h4
    refine ⟨by simp, by simp, fun hk => ?_, fun _ => ⟨by simp, by simp, this⟩⟩
    obtain ⟨k, hk5, hok⟩ := hk
    exact absurd hok (by simp [hall k hk5])

/-- Witness for C7: with three failures followed by a success the create
step ends clean with a container id; with five failures it ends with the
last error. -/
theorem bootCreate_spec_w :
    ((bootCreate fun k => if k < 3 then .error "create failed" else .ok "cid").outErr = none ∧
      (bootCreate fun k => if k < 3 then .error "create failed" else .ok "cid").containerID.isSome = true) ∧
    ((bootCreate fun _ => (.error "boom" : Except String String)).outErr =
        attErr ((fun _ => (.error "boom" : Except String String)) 4) ∧
      (bootCreate fun _ => (.error "boom" : Except String String)).attemptsMade = 5 ∧
      (bootCreate fun _ => (.error "boom" : Except String String)).outErr.isSome = true) :=
  ⟨(bootCreate_spec fun k => if k < 3 then .error "create failed" else .ok "cid").2.2.1
      ⟨3, by decide, by decide⟩,
   (bootCreate_spec fun _ => (.error "boom" : Except String String)).2.2.2
      (fun _ _ => rfl)⟩

/-- C6 counterexample: the claim says the login script's content is the
POSIX script `#!/bin/sh` followed by `echo "<access_token>"`. The Go
raw-string literal in `createLoginScript` begins with a newline, so the
written file starts with a blank line before the shebang; the content
written for token "x" differs from the claimed content (with or without
a trailing newline), while the write itself is the first event of the
run. -/
theorem scriptContent_leading_newline :
    scriptContent "x" ≠ "#!/bin/sh\necho \"x\"" ∧
    scriptContent "x" ≠ "#!/bin/sh\necho \"x\"\n" ∧
    (repoManagerRun "/tmp/tinyci-github-login.sh" "x" [] [] ["git", "fetch", "origin"]
        { createOk := true, startOk := true, waitResult := none }).2.head? =
      some (GitEvent.scriptWritten "/tmp/tinyci-github-login.sh" (scriptContent "x") 0o700) := by
  refine ⟨by decide, by decide, rfl⟩

/-- C6 (amended): every git invocation made through the repo manager is
bracketed by the login script: a spawn event always has a write of the
file at the configured login script path strictly before it and a
deletion of that file strictly after it; the written content is a
newline, then `#!/bin/sh`, then `echo` of the `%q`-quoted access token,
then a newline, with mode 0700; the subprocess environment contains
`GIT_ASKPASS` set to the script path and `EDITOR=/bin/true`; and
whenever the script was created the last event of the call is its
deletion, so the script exists on disk only inside one `Run` call. -/
theorem repoManagerRun_bracket (p tok : String)
    (benv xenv : List (String × String)) (cmd : List String) (o : GitRunOracle) :
    spawnBracketed (repoManagerRun p tok benv xenv cmd o).2 p (scriptContent tok) 0o700 ∧
    (∀ c env, GitEvent.spawned c env ∈ (repoManagerRun p tok benv xenv cmd o).2 →
      c = cmd ∧ ("GIT_ASKPASS", p) ∈ env ∧ ("EDITOR", "/bin/true") ∈ env) ∧
    (∀ p2 content mode,
      GitEvent.scriptWritten p2 content mode ∈ (repoManagerRun p tok benv xenv cmd o).2 →
      p2 = p ∧ content = scriptContent tok ∧ mode = 0o700) ∧
    (o.createOk = true →
      ((repoManagerRun p tok benv xenv cmd o).2).getLast? =
        some (GitEvent.scriptRemoved p)) := by
  obtain ⟨co, so, wr⟩ := o
  cases co <;> cases so <;>
    simp only [repoManagerRun, Bool.not_true, Bool.not_false, if_true, if_false,
      Bool.true_eq_false, ite_true, ite_false]
  · refine ⟨?_, by simp, by simp, by simp⟩
    intro i hi
    simp at hi
  · refine ⟨?_, by simp, by simp, by simp⟩
    intro i hi
    simp at hi
  · refine ⟨?_, by simp [GitEvent.isSpawn], by simp, by simp [List.getLast?]⟩
    intro i hi hsp
    have hi2 : i < 2 := hi
    interval_cases i
    · exact Bool.noConfusion hsp
    · exact Bool.noConfusion hsp
  · refine ⟨?_, ?_, by simp, by simp [List.getLast?]⟩
    · intro i hi hsp
      have hi2 : i < 4 := hi
      interval_cases i
      · exact Bool.noConfusion hsp
      · exact ⟨⟨0, by simp, by omega, rfl⟩, ⟨3, by simp, by omega, rfl⟩⟩
      · exact Bool.noConfusion hsp
      · exact Bool.noConfusion hsp
    · intro c env hmem
      simp at hmem
      exact ⟨hmem.1, by simp [hmem.2], by simp [hmem.2]⟩

/-- Witness for C6: a successful `git fetch origin` invocation through
the repo manager ends with the script's deletion, and its spawn
environment carries `GIT_ASKPASS` and `EDITOR`. -/
theorem repoManagerRun_bracket_w :
    ((["git", "fetch", "origin"] : List String) = ["git", "fetch", "origin"] ∧
      ("GIT_ASKPASS", "/tmp/tinyci-github-login.sh") ∈
        (([] : List (String × String)) ++
          [("GIT_ASKPASS", "/tmp/tinyci-github-login.sh"), ("EDITOR", "/bin/true")] ++ []) ∧
      ("EDITOR", "/bin/true") ∈
        (([] : List (String × String)) ++
          [("GIT_ASKPASS", "/tmp/tinyci-github-login.sh"), ("EDITOR", "/bin/true")] ++ [])) ∧
    ((repoManagerRun "/tmp/tinyci-github-login.sh" "tok" [] [] ["git", "fetch", "origin"]
        { createOk := true, startOk := true, waitResult := none }).2.getLast? =
      some (GitEvent.scriptRemoved "/tmp/tinyci-github-login.sh")) :=
  ⟨(repoManagerRun_bracket "/tmp/tinyci-github-login.sh" "tok" [] []
      ["git", "fetch", "origin"]
      { createOk := true, startOk := true, waitResult := none }).2.1
      ["git", "fetch", "origin"]
      (([] : List (String × String)) ++
        [("GIT_ASKPASS", "/tmp/tinyci-github-login.sh"), ("EDITOR", "/bin/true")] ++ [])
      (by decide),
   (repoManagerRun_bracket "/tmp/tinyci-github-login.sh" "tok" [] []
      ["git", "fetch", "origin"]
      { createOk := true, startOk := true, waitResult := none }).2.2.2 rfl⟩

/-- C8: `Merge` runs `git merge --no-ff -m "CI merge" <ref>`; exactly
when that invocation fails, `git merge --abort` is run as rollback and
the rollback notice is written to the output stream; a failure of the
abort itself only adds a log line; in every case `Merge` returns the
original merge outcome. -/
theorem repoManagerMerge_spec (p tok : String)
    (benv xenv : List (String × String)) (ref : String)
    (mergeRes abortRes : Option String) :
    (repoManagerMerge p tok benv xenv ref mergeRes abortRes).1 = mergeRes ∧
    spawnedCmds (repoManagerMerge p tok benv xenv ref mergeRes abortRes).2.1 =
      (match mergeRes with
       | none => [mergeCmd ref]
       | some _ => [mergeCmd ref, mergeAbortCmd]) ∧
    (repoManagerMerge p tok benv xenv ref mergeRes abortRes).2.2 =
      (match mergeRes with
       | none => []
       | some _ =>
         "merge error; trying to roll back" ::
           (match abortRes with
            | none => []
            | some ae => ["while attempting to roll back: " ++ ae])) := by
  cases mergeRes <;> cases abortRes <;>
    simp [repoManagerMerge, repoManagerRun, spawnedCmds]

/-- C1 counterexample: the claim says finalization polls the queue cancel
state once. On the timed-out-and-not-yet-canceled path the code calls
`SetCancel` and then jumps back to the `retry` label, polling `GetCancel`
a second time: starting from a fresh queue state, finalizing a timed-out
run performs two `GetCancel` calls, not one (the rest of the path —
one `SetCancel`, no `SetStatus` — matches the claim). -/
theorem finalizeRun_timeout_double_poll :
    (finalizeRun true true freshQueue).getCancelCalls = 2 ∧
    (finalizeRun true true freshQueue).setCancelCalls = 1 ∧
    (finalizeRun true true freshQueue).status = none ∧
    (finalizeRun true true freshQueue).getCancelCalls ≠ 1 := by
  have h : finalizeRun true true freshQueue =
      { canceled := true, status := none
        getCancelCalls := 2, setCancelCalls := 1, setStatusCalls := 0 } := by
    simp [finalizeRun, processCancel, freshQueue, QueueState.setCancel]
  rw [h]
  refine ⟨rfl, rfl, rfl, by decide⟩

/-- C1 (amended): for every completed run, finalization decides from a
poll of the queue cancel state; if the queue already recorded a cancel,
`SetStatus` is skipped and nothing else is called; if the run's context
ended by timeout and the queue did not yet record a cancel, `SetCancel`
is called, the cancel state is polled once more, and `SetStatus` is
skipped; otherwise the cancel state is polled exactly once and
`SetStatus` is called with exactly the pass/fail boolean returned by
`Run`. -/
theorem finalizeRun_spec (timedOut runStatus : Bool) (q : QueueState) :
    (q.canceled = true →
      finalizeRun timedOut runStatus q =
        { q with getCancelCalls := q.getCancelCalls + 1 }) ∧
    (q.canceled = false → timedOut = true →
      finalizeRun timedOut runStatus q =
        { q with canceled := true
                 getCancelCalls := q.getCancelCalls + 2
                 setCancelCalls := q.setCancelCalls + 1 }) ∧
    (q.canceled = false → timedOut = false →
      finalizeRun timedOut runStatus q =
        { q with status := some runStatus
                 getCancelCalls := q.getCancelCalls + 1
                 setStatusCalls := q.setStatusCalls + 1 }) := by
  obtain ⟨c, st, g, sc, ss⟩ := q
  refine ⟨?_, ?_, ?_⟩
  · intro hc
    subst hc
    simp [finalizeRun, processCancel]
  · intro hc ht
    subst hc; subst ht
    simp only [finalizeRun]
    rw [processCancel]
    simp only [Bool.and_true, Bool.not_false, Bool.and_self, dite_true, QueueState.setCancel]
    rw [processCancel]
    simp [QueueState.mk.injEq]
  · intro hc ht
    subst hc; subst ht
    simp [finalizeRun, processCancel, QueueState.setStatus]

/-- C2: the spec (`P5`) requires exactly one successful unmount and
removal of the three temp directories on every exit path, including
error returns from mounting. On the mount-error path the code violates
this: `RunDocker` checks `MountRepo`'s error *before* registering the
`MountCleanup` defer, so when the overlay mount syscall fails the run
returns after creating the three temp directories and attempting the
mount, with no unmount and no directory removal at all — the three
fresh directories are leaked. -/
theorem runDocker_mount_error_leaks :
    (runDocker "/var/tinyci/git/owner/repo" mountFailOracle).2 =
      [RunEvent.tempdirCreated "/tmp/tinyci-work1",
       RunEvent.tempdirCreated "/tmp/tinyci-upper1",
       RunEvent.tempdirCreated "/tmp/tinyci-target1",
       RunEvent.mountAttempt false] ∧
    countTempdirs (runDocker "/var/tinyci/git/owner/repo" mountFailOracle).2 = 3 ∧
    countUnmounts (runDocker "/var/tinyci/git/owner/repo" mountFailOracle).2 = 0 ∧
    countRemoves (runDocker "/var/tinyci/git/owner/repo" mountFailOracle).2 = 0 ∧
    (runDocker "/var/tinyci/git/owner/repo" mountFailOracle).1 =
      .error "mount syscall failed" := by
  refine ⟨by decide, by decide, by decide, by decide, by decide⟩

/-- C4 counterexample: the claim says that after each `Downloading` or
`Pull complete` event the rendered progress equals
sum(current)/sum(total) * 100 percent. For the stream consisting of one
`Downloading` event whose detail reports current 3 of total 0, the map
records the layer but the `sum != 0` guard makes the code render
nothing at all, so no progress line is rendered after that event (there
is no ratio to render: the total sum is zero). -/
theorem runPull_zero_total_renders_nothing :
    (runPull [zeroTotalEvent]).1 = [("a", (3, 0))] ∧
    (runPull [zeroTotalEvent]).2 = [] := by
  have hpl : processLine zeroTotalEvent [] = (false, [("a", (3, 0))]) := by
    simp [processLine, zeroTotalEvent, idMapSet, detailNum]
  have hr : renderLine [("a", (3, 0))] = none := by
    simp [renderLine, sumTotal]
  have h : runPull [zeroTotalEvent] = ([("a", (3, 0))], []) := by
    simp [runPull, pullStep, hpl, hr]
  rw [h]
  exact ⟨rfl, rfl⟩

/-- C4 (amended): the progress parser maintains a map from layer id to
(current, total): a `Downloading` event carrying a layer id and a
non-empty progress detail sets the layer's pair to (current, total)
from the event; a `Pull complete` event carrying a layer id forces the
layer's pair to (total, total) of its recorded total, or to (1, 1) if
the layer was never seen; an event with any other status (or no status)
leaves the map unchanged and renders nothing; after each
`Downloading`/`Pull complete` event a progress line is rendered exactly
when the recorded totals sum to a nonzero value, and it then equals
sum(current)/sum(total) * 100 percent. -/
theorem processLine_spec (e : PullEvent) (m : IdMap) :
    (∀ i pd, e.status = some "Downloading" → e.id = some i → i ≠ "" →
      e.progressDetail = some pd → pd ≠ [] →
      processLine e m =
        (false, idMapSet m i (detailNum pd "current", detailNum pd "total"))) ∧
    (∀ i, e.status = some "Pull complete" → e.id = some i → i ≠ "" →
      processLine e m =
        (false,
         match idMapGet m i with
         | some (_, t) => idMapSet m i (t, t)
         | none => idMapSet m i (1, 1))) ∧
    (∀ s, e.status = some s → s ≠ "" → s ≠ "Downloading" → s ≠ "Pull complete" →
      processLine e m = (true, m)) ∧
    (e.status = none → processLine e m = (true, m)) ∧
    (∀ outs, (pullStep (m, outs) e).2 =
      outs ++
        (if (processLine e m).1 = false ∧ sumTotal (processLine e m).2 ≠ 0 then
          [sumCurrent (processLine e m).2 / sumTotal (processLine e m).2 * 100]
        else [])) := by
  refine ⟨?_, ?_, ?_, ?_, ?_⟩
  · intro i pd h1 h2 h3 h4 h5
    simp [processLine, h1, h2, h3, h4, h5]
  · intro i h1 h2 h3
    simp only [processLine, h1, h2]
    simp [h3]
    rcases idMapGet m i with _ | ⟨c, t⟩ <;> simp
  · intro s h1 h2 h3 h4
    simp [processLine, h1, h2, h3, h4]
  · intro h1
    simp [processLine, h1]
  · intro outs
    simp only [pullStep, renderLine]
    rcases hp : processLine e m with ⟨skip, m2⟩
    cases skip
    · simp only [Bool.false_eq_true, if_false]
      by_cases hz : sumTotal m2 = 0 <;> simp [hz]
    · simp

/-- Witness for C4 at concrete inputs: a `Downloading` event for layer
"a" with detail (5, 10) records (5, 10); a `Pull complete` event for a
layer recorded at (5, 10) forces (10, 10); a `Preparing` event is
skipped; an event with no status is skipped; after the (5, 10) event a
line of 50 percent is rendered. -/
theorem processLine_spec_w :
    processLine
        { status := some "Downloading", id := some "a"
          progressDetail := some [("current", 5), ("total", 10)] } [] =
      (false, [("a", (5, 10))]) ∧
    processLine
        { status := some "Pull complete", id := some "a"
          progressDetail := none } [("a", (5, 10))] =
      (false, [("a", (10, 10))]) ∧
    processLine
        { status := some "Preparing", id := some "a"
          progressDetail := none } [("a", (5, 10))] =
      (true, [("a", (5, 10))]) ∧
    processLine { status := none, id := none, progressDetail := none } [] =
      (true, []) ∧
    (pullStep ([],
        ([] : List ℚ))
        { status := some "Downloading", id := some "a"
          progressDetail := some [("current", 5), ("total", 10)] }).2 =
      [] ++
        (if (processLine
              { status := some "Downloading", id := some "a"
                progressDetail := some [("current", 5), ("total", 10)] }
              ([] : IdMap)).1 = false ∧
            sumTotal (processLine
              { status := some "Downloading", id := some "a"
                progressDetail := some [("current", 5), ("total", 10)] }
              ([] : IdMap)).2 ≠ 0 then
          [sumCurrent (processLine
              { status := some "Downloading", id := some "a"
                progressDetail := some [("current", 5), ("total", 10)] }
              ([] : IdMap)).2 /
            sumTotal (processLine
              { status := some "Downloading", id := some "a"
                progressDetail := some [("current", 5), ("total", 10)] }
              ([] : IdMap)).2 * 100]
        else []) :=
  ⟨(processLine_spec
      { status := some "Downloading", id := some "a"
        progressDetail := some [("current", 5), ("total", 10)] } []).1
      "a" [("current", 5), ("total", 10)] rfl rfl (by decide) rfl (by decide),
   (processLine_spec
      { status := some "Pull complete", id := some "a"
        progressDetail := none } [("a", (5, 10))]).2.1
      "a" rfl rfl (by decide),
   (processLine_spec
      { status := some "Preparing", id := some "a"
        progressDetail := none } [("a", (5, 10))]).2.2.1
      "Preparing" rfl (by decide) (by decide) (by decide),
   (processLine_spec { status := none, id := none, progressDetail := none } []).2.2.2.1
      rfl,
   (processLine_spec
      { status := some "Downloading", id := some "a"
        progressDetail := some [("current", 5), ("total", 10)] } []).2.2.2.2
      []⟩

/-- Helper invariant tying the render fold to the render-point fold:
when the accumulated outputs are exactly the nonzero-total render points
so far, folding any further events preserves that relation. -/
theorem pull_fold_inv (es : List PullEvent) :
    ∀ (m : IdMap) (outs : List ℚ) (pts : List IdMap),
    outs = pts.filterMap renderLine →
    (es.foldl pullStep (m, outs)).1 = (es.foldl renderPointsStep (m, pts)).1 ∧
    (es.foldl pullStep (m, outs)).2 =
      ((es.foldl renderPointsStep (m, pts)).2).filterMap renderLine := by
  induction es with
  | nil =>
    intro m outs pts h
    exact ⟨rfl, h⟩
  | cons e es ih =>
    intro m outs pts h
    subst h
    simp only [List.foldl_cons]
    rcases hp : processLine e m with ⟨skip, m2⟩
    cases skip
    · have hstep : pullStep (m, List.filterMap renderLine pts) e =
          (m2, List.filterMap renderLine pts ++ (renderLine m2).toList) := by
        simp only [pullStep, hp]
        rcases hr : renderLine m2 with _ | pct <;> simp [hr]
      have hstep2 : renderPointsStep (m, pts) e = (m2, pts ++ [m2]) := by
        simp [renderPointsStep, hp]
      rw [hstep, hstep2]
      apply ih
      rw [List.filterMap_append]
      have htl : (renderLine m2).toList = List.filterMap renderLine [m2] := by
        rcases hr : renderLine m2 with _ | pct <;> simp [hr]
      rw [htl]
    · have hstep : pullStep (m, List.filterMap renderLine pts) e =
          (m2, List.filterMap renderLine pts) := by
        simp [pullStep, hp]
      have hstep2 : renderPointsStep (m, pts) e = (m2, pts) := by
        simp [renderPointsStep, hp]
      rw [hstep, hstep2]
      exact ih m2 _ pts rfl

/-- C10: the pull-progress renderer emits exactly the percentage lines
of those render points whose recorded totals sum to a nonzero value (in
order), each equal to sum(current)/sum(total) * 100; in particular, on
a stream whose recorded totals always sum to zero nothing is emitted
and the ratio is never formed with a zero denominator (`renderLine`
yields a value only under the nonzero guard). -/
theorem runPull_renders_nonzero_points (events : List PullEvent) :
    (runPull events).2 = (renderPoints events).filterMap renderLine := by
  have h := pull_fold_inv events [] [] [] (by simp)
  exact h.2

/-- Witness for C1 at concrete inputs: a run that neither timed out nor
was canceled reports exactly the status `Run` returned, with a single
cancel poll; a run against a queue that already recorded a cancel skips
the status report. -/
theorem finalizeRun_spec_w :
    finalizeRun false true freshQueue =
      { canceled := false, status := some true
        getCancelCalls := 1, setCancelCalls := 0, setStatusCalls := 1 } ∧
    finalizeRun false false { freshQueue with canceled := true } =
      { canceled := true, status := none
        getCancelCalls := 1, setCancelCalls := 0, setStatusCalls := 0 } :=
  ⟨(finalizeRun_spec false true freshQueue).2.2 rfl rfl,
   (finalizeRun_spec false false { freshQueue with canceled := true }).1 rfl⟩

end CIRunners
